import Mathlib

/-
  Verification of the type-to-OpenAPI-schema translator in
  openapi_specgen/schema.py.

  The Python module is shallowly embedded: Python type objects that can be
  handed to the translator are modelled by the inductive PyType, dataclass
  field annotations (which may be real type objects or forward-reference
  strings) by PyAnnot, and the produced JSON-like dicts by JVal / JDict
  (association lists with Python dict insertion-order and update semantics).
  Exceptions (the NameError raised by typing.get_type_hints on a dangling
  forward reference) are modelled with Except String.
-/

/-- A JSON-like value as produced by the translator: a string, a list of
strings (the required-field list) or a nested mapping. -/
inductive JVal where
  | s (v : String)
  | arr (v : List String)
  | o (v : List (String × JVal))
deriving Repr

/-- A Python dict with string keys, as an insertion-ordered association list. -/
abbrev JDict := List (String × JVal)

/-- Python dict lookup: d[k] as an Option. -/
def jlookup (k : String) : JDict → Option JVal
  | [] => none
  | (k2, v) :: rest => if k2 = k then some v else jlookup k rest

/-- Python dict assignment d[k] = v: replace the value in place when the key
exists (keeping its position), otherwise append the new pair. -/
def dinsert (d : JDict) (k : String) (v : JVal) : JDict :=
  if d.any (fun kv => kv.1 = k) then
    d.map (fun kv => if kv.1 = k then (k, v) else kv)
  else d ++ [(k, v)]

/-- Python dict.update(extra): set every key of extra in order. -/
def dupdate (d extra : JDict) : JDict :=
  extra.foldl (fun acc kv => dinsert acc kv.1 kv.2) d

mutual
/-- A Python type object (or typing alias) as understood by schema.py. -/
inductive PyType where
  | pystr
  | pydate
  | pydatetime
  | pyfloat
  | pyint
  | pybool
  /-- the builtin type list -/
  | pylist
  /-- bare typing.List, whose single argument is the TypeVar T -/
  | pyListBare
  /-- typing.List[elem], a _GenericAlias with origin list -/
  | pyListOf (elem : PyType)
  /-- typing.Optional[arg] = Union[arg, None], a _GenericAlias with origin Union -/
  | pyOptional (arg : PyType)
  /-- a marshmallow.Schema subclass with the given __name__ -/
  | pyMarshmallow (name : String)
  /-- a dataclass with the given __name__ and ordered fields -/
  | pyDataclass (name : String) (fields : List (String × PyAnnot))
  /-- any other class: classified as object with no structural definition -/
  | pyClass (name : String)
deriving Repr

/-- A dataclass field annotation: either a real type object, or a
forward-reference string that typing.get_type_hints either resolves to a type
or fails on (NameError) when no matching symbol exists. -/
inductive PyAnnot where
  | ty (t : PyType)
  | fwdRef (s : String) (resolved : Option PyType)
deriving Repr
end

/-- A dataclass field: name together with its raw annotation. -/
abbrev PyField := String × PyAnnot

/-- OPENAPI_TYPE_MAP from schema.py: a dict keyed by specific type objects. -/
def OPENAPI_TYPE_MAP : PyType → Option String
  | .pystr => some "string"
  | .pydate => some "string"
  | .pydatetime => some "string"
  | .pyfloat => some "number"
  | .pyint => some "integer"
  | .pybool => some "boolean"
  | .pylist => some "array"
  | .pyOptional .pystr => some "string"
  | .pyOptional .pydate => some "string"
  | .pyOptional .pydatetime => some "string"
  | .pyOptional .pyfloat => some "number"
  | .pyOptional .pyint => some "integer"
  | .pyOptional .pybool => some "boolean"
  | _ => none

/-- OPENAPI_FORMAT_MAP from schema.py. -/
def OPENAPI_FORMAT_MAP : PyType → Option String
  | .pydate => some "date"
  | .pydatetime => some "date-time"
  | .pyOptional .pydate => some "date"
  | .pyOptional .pydatetime => some "date-time"
  | _ => none

/-- isinstance(x, typing._GenericAlias): true for parameterized aliases such
as List[E], Optional[T] = Union[T, None], and bare typing.List. -/
def isGenericAlias : PyType → Bool
  | .pyListBare | .pyListOf _ | .pyOptional _ => true
  | _ => false

/-- For a _GenericAlias, whether its __origin__ is the builtin list. -/
def genericOriginIsList : PyType → Bool
  | .pyListBare | .pyListOf _ => true
  | _ => false

/-- get_openapi_type from schema.py: generic aliases with origin list are
"array"; everything else is looked up in OPENAPI_TYPE_MAP with default
"object". -/
def get_openapi_type (data_type : PyType) : String :=
  if isGenericAlias data_type && genericOriginIsList data_type then "array"
  else (OPENAPI_TYPE_MAP data_type).getD "object"

/-- get_openapi_format from schema.py: OPENAPI_FORMAT_MAP.get(data_type). -/
def get_openapi_format (data_type : PyType) : Option String :=
  OPENAPI_FORMAT_MAP data_type

/-- _is_optional_type from schema.py: get_origin(field) is Union and NoneType
is among get_args(field); pyOptional models exactly Union[T, None]. -/
def _is_optional_type : PyType → Bool
  | .pyOptional _ => true
  | _ => false

/-- The value of array_type.__args__[0] as read by get_array_item_type: the
Python value None when the argument is not a _GenericAlias, a TypeVar for bare
typing.List, or a concrete type. -/
inductive ItemType where
  | pynone
  | tyvar
  | ty (t : PyType)
deriving Repr

/-- get_array_item_type from schema.py: None unless the input is a
_GenericAlias, in which case the first type argument. -/
def get_array_item_type : PyType → ItemType
  | .pyListBare => .tyvar
  | .pyListOf e => .ty e
  | .pyOptional t => .ty t
  | _ => .pynone

/-- The __name__ attribute of a type object, as used when building a $ref.
For the typing aliases this models the name exposed by recent Python
versions; the claims under verification only exercise __name__ on plain
classes, dataclasses and marshmallow schema classes. -/
def pyName : PyType → String
  | .pystr => "str"
  | .pydate => "date"
  | .pydatetime => "datetime"
  | .pyfloat => "float"
  | .pyint => "int"
  | .pybool => "bool"
  | .pylist => "list"
  | .pyListBare => "List"
  | .pyListOf _ => "List"
  | .pyOptional _ => "Optional"
  | .pyMarshmallow n => n
  | .pyDataclass n _ => n
  | .pyClass n => n

/-- The guard type(data_type) == type and issubclass(data_type,
marshmallow.Schema) from schema.py: true exactly for marshmallow Schema
subclasses. -/
def isMarshmallowT : PyType → Bool
  | .pyMarshmallow _ => true
  | _ => false

/-- dataclasses.is_dataclass(data_type). -/
def isDataclassT : PyType → Bool
  | .pyDataclass _ _ => true
  | _ => false

/-- What typing.get_type_hints resolves an annotation to: a direct type
object is itself; a forward-reference string resolves to its target, or to
nothing when the name is dangling. -/
def resolveAnnot : PyAnnot → Option PyType
  | .ty t => some t
  | .fwdRef _ r => r

/-- The first field (in declaration order) whose annotation
typing.get_type_hints cannot resolve, if any: on such a field
get_type_hints raises NameError. -/
def danglingField : List PyField → Option String
  | [] => none
  | (_, .ty _) :: rest => danglingField rest
  | (_, .fwdRef s r) :: rest =>
      match r with
      | some _ => danglingField rest
      | none => some s

/-- Whether a field counts as optional in the required-list computation:
_is_optional_type applied to the resolved hint of the field. -/
def fieldOptional (f : PyField) : Bool :=
  match resolveAnnot f.2 with
  | some t => _is_optional_type t
  | none => false

/-- The required list from get_openapi_schema_from_dataclass: names of the
fields whose resolved type is not an optional wrapper, in declaration order. -/
def dcRequired (fields : List PyField) : List String :=
  (fields.filter (fun f => !fieldOptional f)).map Prod.fst

/-- Modelled from the spec: get_openapi_schema_from_mashmallow_schema lives in
openapi_specgen/marshmallow_schema.py, which schema.py imports but which is
not under src/. Per the specification (the ValidationSchemaAdapter boundary),
the adapter follows the same reference/inline contract as the top-level
resolver: with reference true it returns the $ref fragment for the schema
class name; inline it returns a mapping keyed by the class name holding an
object definition. The inline field structure of the foreign schema is
adapter-internal and is modelled here as an empty properties mapping. -/
def get_openapi_schema_from_mashmallow_schema (name : String) (reference : Bool) : JDict :=
  if reference then
    [("$ref", JVal.s ("#/components/schemas/" ++ name))]
  else
    [(name, JVal.o [("title", JVal.s name), ("type", JVal.s "object"),
                    ("properties", JVal.o [])])]

/-- The scalar tail of get_openapi_schema: attach the format when
OPENAPI_FORMAT_MAP has one, else just the type. -/
def scalarTail (data_type : PyType) (openapi_type : String) : JDict :=
  match get_openapi_format data_type with
  | some f => [("type", JVal.s openapi_type), ("format", JVal.s f)]
  | none => [("type", JVal.s openapi_type)]

lemma sizeOf_resolveAnnot {a : PyAnnot} {t : PyType} (h : resolveAnnot a = some t) :
    sizeOf t < sizeOf a := by
  cases a with
  | ty t2 =>
      simp [resolveAnnot] at h
      subst h
      simp_arith
  | fwdRef s r =>
      cases r with
      | none => simp [resolveAnnot] at h
      | some t2 =>
          simp [resolveAnnot] at h
          subst h
          simp_arith

lemma sizeOf_get_array_item_type {t e : PyType} (h : get_array_item_type t = ItemType.ty e) :
    sizeOf e < sizeOf t := by
  cases t <;> simp [get_array_item_type] at h <;> (subst h; simp_arith)

mutual
/-- get_openapi_schema from schema.py. The source computes the openapi type,
handles the object kind (marshmallow delegation, then the $ref shortcut, then
the dataclass resolver, otherwise falling through), then the array kind, and
finally the scalar tail. The fall-through of an object-kind type that is
neither marshmallow nor referenced nor a dataclass skips the array branch
(its openapi type is "object") and lands in the scalar tail. In the source
reference defaults to true; calls here always pass it explicitly. -/
def get_openapi_schema (data_type : PyType) (reference : Bool) :
    Except String JDict :=
  let openapi_type := get_openapi_type data_type
  if openapi_type = "object" then
    match data_type with
    | .pyMarshmallow name =>
        pure (get_openapi_schema_from_mashmallow_schema name reference)
    | .pyDataclass name fields =>
        if reference then
          pure [("$ref", JVal.s ("#/components/schemas/" ++ name))]
        else
          get_openapi_schema_from_dataclass name fields
    | other =>
        if reference then
          pure [("$ref", JVal.s ("#/components/schemas/" ++ pyName other))]
        else
          pure (scalarTail other openapi_type)
  else if openapi_type = "array" then
    get_openapi_array_schema data_type
  else
    pure (scalarTail data_type openapi_type)
termination_by (sizeOf data_type, 3)
decreasing_by
  · apply Prod.Lex.left
    simp_arith
  · apply Prod.Lex.right
    omega

/-- get_openapi_array_schema from schema.py: an empty items mapping when the
item type is absent or a TypeVar, otherwise the recursively resolved item
schema (with the default reference=True). -/
def get_openapi_array_schema (array_type : PyType) : Except String JDict :=
  match h : get_array_item_type array_type with
  | .pynone => pure [("type", JVal.s "array"), ("items", JVal.o [])]
  | .tyvar => pure [("type", JVal.s "array"), ("items", JVal.o [])]
  | .ty item_type => do
      let items ← get_openapi_schema item_type true
      pure [("type", JVal.s "array"), ("items", JVal.o items)]
termination_by (sizeOf array_type, 2)
decreasing_by
  · apply Prod.Lex.left
    exact sizeOf_get_array_item_type h

/-- get_openapi_schema_from_dataclass from schema.py. get_type_hints runs
first and raises NameError on a dangling forward reference, before any part
of the result is built; then the root entry (title, required, type,
properties from the resolved hints with the default reference=True) is
constructed; finally the merge loop updates the mapping with the inline
schema of every field whose raw annotation classifies as object. -/
def get_openapi_schema_from_dataclass (name : String) (fields : List PyField) :
    Except String JDict :=
  match danglingField fields with
  | some s => throw ("NameError: name " ++ s ++ " is not defined")
  | none => do
      let props ← dcProperties fields
      let root : JDict :=
        [(name, JVal.o [
            ("title", JVal.s name),
            ("required", JVal.arr (dcRequired fields)),
            ("type", JVal.s "object"),
            ("properties", JVal.o props)])]
      let ds ← dcMergeDicts fields
      pure (ds.foldl dupdate root)
termination_by (sizeOf fields, 2)
decreasing_by
  · apply Prod.Lex.right
    omega
  · apply Prod.Lex.right
    omega

/-- The properties comprehension of get_openapi_schema_from_dataclass: each
field name mapped to the schema of its resolved type with the default
reference=True. An unresolvable annotation cannot occur here because the
get_type_hints guard has already raised; the branch skips the field. -/
def dcProperties (fields : List PyField) : Except String JDict :=
  match fields with
  | [] => pure []
  | f :: rest =>
      match h : resolveAnnot f.2 with
      | some t => do
          let v ← get_openapi_schema t true
          let restd ← dcProperties rest
          pure ((f.1, JVal.o v) :: restd)
      | none => dcProperties rest
termination_by (sizeOf fields, 1)
decreasing_by
  · apply Prod.Lex.left
    have h1 := sizeOf_resolveAnnot h
    cases f with
    | mk fn fa =>
        simp at h1 ⊢
        omega
  · apply Prod.Lex.left
    simp_arith
  · apply Prod.Lex.left
    simp_arith

/-- The merge loop of get_openapi_schema_from_dataclass, collected as the list
of dicts it updates the result with, in field order. It tests the RAW
field.type annotation: a direct type object is merged when it classifies as
object; a forward-reference string annotation is a str value, which is not a
_GenericAlias and not a key of OPENAPI_TYPE_MAP, so it classifies as object,
and get_openapi_schema of a str value with reference=False falls through
every branch to the scalar tail, a plain type-object fragment. -/
def dcMergeDicts (fields : List PyField) : Except String (List JDict) :=
  match fields with
  | [] => pure []
  | f :: rest =>
      match h2 : f.2 with
      | .ty t =>
          if get_openapi_type t = "object" then do
            let d ← get_openapi_schema t false
            let ds ← dcMergeDicts rest
            pure (d :: ds)
          else dcMergeDicts rest
      | .fwdRef _ _ => do
          let ds ← dcMergeDicts rest
          pure ([("type", JVal.s "object")] :: ds)
termination_by (sizeOf fields, 1)
decreasing_by
  · apply Prod.Lex.left
    have h1 : sizeOf t < sizeOf f.2 := by
      rw [h2]
      simp_arith
    cases f with
    | mk fn fa =>
        simp at h1 ⊢
        omega
  · apply Prod.Lex.left
    simp_arith
  · apply Prod.Lex.left
    simp_arith
  · apply Prod.Lex.left
    simp_arith
end

/- ### Lemmas about the dict operations -/

lemma jlookup_isSome_iff (k : String) (d : JDict) :
    (jlookup k d).isSome = true ↔ k ∈ d.map Prod.fst := by
  induction d with
  | nil => simp [jlookup]
  | cons kv rest ih =>
      obtain ⟨k2, v⟩ := kv
      rw [List.map_cons, List.mem_cons]
      by_cases hk : k2 = k
      · subst hk
        simp [jlookup]
      · have hk2 : ¬ k = k2 := fun e => hk e.symm
        simp [jlookup, hk, hk2, ih]

lemma jlookup_eq_none_iff (k : String) (d : JDict) :
    jlookup k d = none ↔ k ∉ d.map Prod.fst := by
  rw [← jlookup_isSome_iff]
  cases jlookup k d <;> simp

lemma jlookup_map_replace (k k2 : String) (v : JVal) (d : JDict) (h : k2 ≠ k) :
    jlookup k (d.map (fun kv => if kv.1 = k2 then (k2, v) else kv)) = jlookup k d := by
  induction d with
  | nil => rfl
  | cons kv rest ih =>
      obtain ⟨a, b⟩ := kv
      rw [List.map_cons]
      by_cases ha : a = k2
      · subst ha
        have hh : (if ((a, b) : String × JVal).1 = a then (a, v) else (a, b)) = (a, v) := by
          simp
        rw [hh]
        simp [jlookup, h, ih]
      · have hh : (if ((a, b) : String × JVal).1 = k2 then (k2, v) else (a, b)) = (a, b) := by
          simp [ha]
        rw [hh]
        by_cases hak : a = k <;> simp [jlookup, hak, ih]

lemma map_fst_replace (d : JDict) (k2 : String) (v : JVal) :
    (d.map (fun kv => if kv.1 = k2 then (k2, v) else kv)).map Prod.fst = d.map Prod.fst := by
  induction d with
  | nil => rfl
  | cons kv rest ih =>
      obtain ⟨a, b⟩ := kv
      rw [List.map_cons]
      by_cases ha : a = k2
      · subst ha
        have hh : (if ((a, b) : String × JVal).1 = a then (a, v) else (a, b)) = (a, v) := by
          simp
        simp [hh, ih]
      · have hh : (if ((a, b) : String × JVal).1 = k2 then (k2, v) else (a, b)) = (a, b) := by
          simp [ha]
        simp [hh, ih]

lemma jlookup_append_single_ne (k k2 : String) (v : JVal) (d : JDict) (h : k2 ≠ k) :
    jlookup k (d ++ [(k2, v)]) = jlookup k d := by
  induction d with
  | nil => simp [jlookup, h]
  | cons kv rest ih =>
      obtain ⟨a, b⟩ := kv
      by_cases ha : a = k <;> simp [jlookup, ha, ih]

lemma jlookup_dinsert_ne (d : JDict) (k k2 : String) (v : JVal) (h : k2 ≠ k) :
    jlookup k (dinsert d k2 v) = jlookup k d := by
  unfold dinsert
  split
  · exact jlookup_map_replace k k2 v d h
  · exact jlookup_append_single_ne k k2 v d h

lemma dupdate_cons (d : JDict) (kv : String × JVal) (rest : JDict) :
    dupdate d (kv :: rest) = dupdate (dinsert d kv.1 kv.2) rest := rfl

lemma jlookup_dupdate_none (d extra : JDict) (k : String)
    (h : jlookup k extra = none) :
    jlookup k (dupdate d extra) = jlookup k d := by
  induction extra generalizing d with
  | nil => simp [dupdate]
  | cons kv rest ih =>
      obtain ⟨k2, v⟩ := kv
      have hne : k2 ≠ k := by
        intro he
        simp [jlookup, he] at h
      have hr : jlookup k rest = none := by
        simpa [jlookup, hne] using h
      rw [dupdate_cons, ih _ hr, jlookup_dinsert_ne _ _ _ _ hne]

lemma jlookup_foldl_dupdate_none (ds : List JDict) (acc : JDict) (k : String)
    (h : ∀ d ∈ ds, jlookup k d = none) :
    jlookup k (ds.foldl dupdate acc) = jlookup k acc := by
  induction ds generalizing acc with
  | nil => simp
  | cons d rest ih =>
      simp only [List.foldl_cons]
      rw [ih _ (fun d2 hd2 => h d2 (List.mem_cons_of_mem _ hd2)),
          jlookup_dupdate_none _ _ _ (h d (List.mem_cons_self _ _))]

lemma keys_dinsert (d : JDict) (k2 : String) (v : JVal) :
    (dinsert d k2 v).map Prod.fst =
      if d.any (fun kv => kv.1 = k2) then d.map Prod.fst
      else d.map Prod.fst ++ [k2] := by
  unfold dinsert
  split
  · next hc => exact map_fst_replace d k2 v
  · next hc => simp

lemma isSome_dinsert_iff (d : JDict) (k k2 : String) (v : JVal) :
    (jlookup k (dinsert d k2 v)).isSome = true ↔
      k = k2 ∨ (jlookup k d).isSome = true := by
  rw [jlookup_isSome_iff, jlookup_isSome_iff, keys_dinsert]
  split
  · next hc =>
      constructor
      · intro hk
        exact Or.inr hk
      · intro hk
        rcases hk with hk | hk
        · subst hk
          rcases List.any_eq_true.mp hc with ⟨kv, hkv, he⟩
          have : kv.1 = k := by simpa using he
          exact this ▸ List.mem_map_of_mem Prod.fst hkv
        · exact hk
  · next hc => simp [eq_comm, or_comm]

lemma isSome_dupdate_left (d extra : JDict) (k : String)
    (h : (jlookup k d).isSome = true) :
    (jlookup k (dupdate d extra)).isSome = true := by
  induction extra generalizing d with
  | nil => simpa [dupdate] using h
  | cons kv rest ih =>
      rw [dupdate_cons]
      exact ih _ ((isSome_dinsert_iff _ _ _ _).mpr (Or.inr h))

lemma isSome_dupdate_right (d extra : JDict) (k : String)
    (h : (jlookup k extra).isSome = true) :
    (jlookup k (dupdate d extra)).isSome = true := by
  induction extra generalizing d with
  | nil => simp [jlookup] at h
  | cons kv rest ih =>
      obtain ⟨k2, v⟩ := kv
      rw [dupdate_cons]
      by_cases hk : k2 = k
      · subst hk
        exact isSome_dupdate_left _ _ _ ((isSome_dinsert_iff _ _ _ _).mpr (Or.inl rfl))
      · have hr : (jlookup k rest).isSome = true := by
          simpa [jlookup, hk] using h
        exact ih _ hr

lemma isSome_foldl_dupdate_left (ds : List JDict) (acc : JDict) (k : String)
    (h : (jlookup k acc).isSome = true) :
    (jlookup k (ds.foldl dupdate acc)).isSome = true := by
  induction ds generalizing acc with
  | nil => simpa using h
  | cons d rest ih =>
      simp only [List.foldl_cons]
      exact ih _ (isSome_dupdate_left _ _ _ h)

lemma isSome_foldl_dupdate_mem (ds : List JDict) (acc d2 : JDict) (k : String)
    (hmem : d2 ∈ ds) (h : (jlookup k d2).isSome = true) :
    (jlookup k (ds.foldl dupdate acc)).isSome = true := by
  induction ds generalizing acc with
  | nil => simp at hmem
  | cons d rest ih =>
      simp only [List.foldl_cons]
      rcases List.mem_cons.mp hmem with he | hmem2
      · subst he
        exact isSome_foldl_dupdate_left _ _ _ (isSome_dupdate_right _ _ _ h)
      · exact ih _ hmem2

/- ### Lemmas about the resolver -/

lemma exists_ok_iff {α β : Type} (x : Except α β) :
    (∃ d, x = Except.ok d) ↔ x.isOk = true := by
  cases x <;> simp [Except.isOk, Except.toBool]

lemma get_openapi_schema_true_ok_aux :
    ∀ (n : Nat) (t : PyType), sizeOf t ≤ n →
      ∃ d, get_openapi_schema t true = Except.ok d := by
  intro n
  induction n with
  | zero =>
      intro t h
      cases t <;> simp_arith at h
  | succ n ih =>
      intro t h
      cases t
      case pyListOf e =>
        have he : sizeOf e ≤ n := by
          simp_arith at h
          omega
        obtain ⟨d, hd⟩ := ih e he
        rw [exists_ok_iff]
        simp [get_openapi_schema, get_openapi_type, isGenericAlias, genericOriginIsList,
              OPENAPI_TYPE_MAP, get_openapi_array_schema, get_array_item_type, hd,
              pure, Except.pure, bind, Except.bind, Except.isOk, Except.toBool]
      case pyOptional x =>
        cases x <;>
          (rw [exists_ok_iff]
           simp [get_openapi_schema, get_openapi_type, isGenericAlias, genericOriginIsList,
                 OPENAPI_TYPE_MAP, scalarTail, get_openapi_format, OPENAPI_FORMAT_MAP,
                 pyName, pure, Except.pure, Except.isOk, Except.toBool])
      all_goals rw [exists_ok_iff]
      all_goals
        simp [get_openapi_schema, get_openapi_type, isGenericAlias, genericOriginIsList,
              OPENAPI_TYPE_MAP, scalarTail, get_openapi_format, OPENAPI_FORMAT_MAP,
              get_openapi_array_schema, get_array_item_type, pyName,
              get_openapi_schema_from_mashmallow_schema, pure, Except.pure,
              Except.isOk, Except.toBool]

lemma schema_true_ok (t : PyType) : ∃ d, get_openapi_schema t true = Except.ok d :=
  get_openapi_schema_true_ok_aux (sizeOf t) t le_rfl

lemma danglingField_cons_none {f : PyField} {rest : List PyField}
    (h : danglingField (f :: rest) = none) :
    (∃ t, resolveAnnot f.2 = some t) ∧ danglingField rest = none := by
  obtain ⟨nm, a⟩ := f
  cases a with
  | ty t => exact ⟨⟨t, rfl⟩, by simpa [danglingField] using h⟩
  | fwdRef s r =>
      cases r with
      | none => simp [danglingField] at h
      | some t => exact ⟨⟨t, rfl⟩, by simpa [danglingField, resolveAnnot] using h⟩

lemma dcProperties_cons_some {f : PyField} {rest : List PyField} {t : PyType}
    (ht : resolveAnnot f.2 = some t) :
    dcProperties (f :: rest) =
      match get_openapi_schema t true with
      | Except.error err => Except.error err
      | Except.ok v =>
          match dcProperties rest with
          | Except.error err => Except.error err
          | Except.ok restd => Except.ok ((f.1, JVal.o v) :: restd) := by
  simp only [dcProperties, bind, Except.bind, pure, Except.pure]
  split
  · next t2 heq =>
      rw [ht] at heq
      injection heq with he
      subst he
      cases get_openapi_schema t true <;> try rfl
      cases dcProperties rest <;> rfl
  · next heq => rw [ht] at heq; cases heq

lemma dcProperties_cons_none {f : PyField} {rest : List PyField}
    (ht : resolveAnnot f.2 = none) :
    dcProperties (f :: rest) = dcProperties rest := by
  simp only [dcProperties]
  split
  · next t2 heq => rw [ht] at heq; cases heq
  · next heq => rfl

lemma dcMergeDicts_cons_ty {f : PyField} {rest : List PyField} {t : PyType}
    (ht : f.2 = PyAnnot.ty t) :
    dcMergeDicts (f :: rest) =
      if get_openapi_type t = "object" then
        match get_openapi_schema t false with
        | Except.error err => Except.error err
        | Except.ok d =>
            match dcMergeDicts rest with
            | Except.error err => Except.error err
            | Except.ok ds => Except.ok (d :: ds)
      else dcMergeDicts rest := by
  simp only [dcMergeDicts, bind, Except.bind, pure, Except.pure]
  split
  · next t2 heq =>
      rw [ht] at heq
      injection heq with he
      subst he
      by_cases hob : get_openapi_type t = "object"
      · simp only [if_pos hob]
        cases get_openapi_schema t false <;> try rfl
        cases dcMergeDicts rest <;> rfl
      · simp only [if_neg hob]
  · next s r heq => rw [ht] at heq; cases heq

lemma dcMergeDicts_cons_fwd {f : PyField} {rest : List PyField} {s : String}
    {r : Option PyType} (ht : f.2 = PyAnnot.fwdRef s r) :
    dcMergeDicts (f :: rest) =
      match dcMergeDicts rest with
      | Except.error err => Except.error err
      | Except.ok ds => Except.ok ([("type", JVal.s "object")] :: ds) := by
  simp only [dcMergeDicts, bind, Except.bind, pure, Except.pure]
  split
  · next t2 heq => rw [ht] at heq; cases heq
  · next s2 r2 heq => cases dcMergeDicts rest <;> rfl

lemma dcProperties_ok {fields : List PyField} (h : danglingField fields = none) :
    ∃ props, dcProperties fields = Except.ok props ∧
      props.map Prod.fst = fields.map Prod.fst := by
  induction fields with
  | nil => exact ⟨[], by simp [dcProperties, pure, Except.pure], rfl⟩
  | cons f rest ih =>
      obtain ⟨⟨t, ht⟩, hrest⟩ := danglingField_cons_none h
      obtain ⟨props, hp, hk⟩ := ih hrest
      obtain ⟨d, hd⟩ := schema_true_ok t
      refine ⟨(f.1, JVal.o d) :: props, ?_, ?_⟩
      · rw [dcProperties_cons_some ht, hd, hp]
      · simp [hk]

lemma dcMergeDicts_empty {fields : List PyField}
    (h : ∀ f ∈ fields, ∃ t, f.2 = PyAnnot.ty t ∧ get_openapi_type t ≠ "object") :
    dcMergeDicts fields = Except.ok [] := by
  induction fields with
  | nil => simp [dcMergeDicts, pure, Except.pure]
  | cons f rest ih =>
      obtain ⟨t, ht, hobj⟩ := h f (List.mem_cons_self _ _)
      have hr := ih (fun g hg => h g (List.mem_cons_of_mem _ hg))
      rw [dcMergeDicts_cons_ty ht, if_neg hobj]
      exact hr

lemma from_dataclass_eq (name : String) {fields : List PyField} {props : JDict}
    {ds : List JDict}
    (h1 : danglingField fields = none)
    (h2 : dcProperties fields = Except.ok props)
    (h3 : dcMergeDicts fields = Except.ok ds) :
    get_openapi_schema_from_dataclass name fields =
      Except.ok (ds.foldl dupdate
        [(name, JVal.o [("title", JVal.s name),
                        ("required", JVal.arr (dcRequired fields)),
                        ("type", JVal.s "object"),
                        ("properties", JVal.o props)])]) := by
  simp [get_openapi_schema_from_dataclass, h1, h2, h3, pure, Except.pure, bind, Except.bind]

lemma from_dataclass_ok_inv {name : String} {fields : List PyField} {result : JDict}
    (h : get_openapi_schema_from_dataclass name fields = Except.ok result) :
    danglingField fields = none ∧
    ∃ props ds, dcProperties fields = Except.ok props ∧
      dcMergeDicts fields = Except.ok ds ∧
      result = ds.foldl dupdate
        [(name, JVal.o [("title", JVal.s name),
                        ("required", JVal.arr (dcRequired fields)),
                        ("type", JVal.s "object"),
                        ("properties", JVal.o props)])] := by
  cases hd : danglingField fields with
  | some s => simp [get_openapi_schema_from_dataclass, hd, throw, throwThe, MonadExceptOf.throw] at h
  | none =>
      refine ⟨rfl, ?_⟩
      cases hp : dcProperties fields with
      | error e => simp [get_openapi_schema_from_dataclass, hd, hp, bind, Except.bind] at h
      | ok props =>
          cases hm : dcMergeDicts fields with
          | error e =>
              simp [get_openapi_schema_from_dataclass, hd, hp, hm, bind, Except.bind] at h
          | ok ds =>
              refine ⟨props, ds, rfl, rfl, ?_⟩
              simp [get_openapi_schema_from_dataclass, hd, hp, hm,
                    pure, Except.pure, bind, Except.bind] at h
              exact h.symm

lemma dcMergeDicts_mem {fields : List PyField} {ds : List JDict}
    (h : dcMergeDicts fields = Except.ok ds) :
    ∀ f ∈ fields, ∀ t, f.2 = PyAnnot.ty t → get_openapi_type t = "object" →
      ∀ d, get_openapi_schema t false = Except.ok d → d ∈ ds := by
  induction fields generalizing ds with
  | nil =>
      intro f hf
      simp at hf
  | cons g rest ih =>
      intro f hf t ht hobj d hd
      rcases hg2 : g.2 with t2 | ⟨s, r⟩
      · by_cases hobj2 : get_openapi_type t2 = "object"
        · rw [dcMergeDicts_cons_ty hg2, if_pos hobj2] at h
          cases hs : get_openapi_schema t2 false with
          | error e => rw [hs] at h; cases h
          | ok d2 =>
              rw [hs] at h
              cases hrest : dcMergeDicts rest with
              | error e => rw [hrest] at h; cases h
              | ok ds2 =>
                  rw [hrest] at h
                  injection h with hds
                  subst hds
                  rcases List.mem_cons.mp hf with he | hm
                  · subst he
                    rw [hg2] at ht
                    injection ht with hte
                    subst hte
                    rw [hs] at hd
                    injection hd with hde
                    subst hde
                    exact List.mem_cons_self _ _
                  · exact List.mem_cons_of_mem _ (ih hrest f hm t ht hobj d hd)
        · rw [dcMergeDicts_cons_ty hg2, if_neg hobj2] at h
          rcases List.mem_cons.mp hf with he | hm
          · subst he
            rw [hg2] at ht
            injection ht with hte
            subst hte
            exact absurd hobj hobj2
          · exact ih h f hm t ht hobj d hd
      · rw [dcMergeDicts_cons_fwd hg2] at h
        cases hrest : dcMergeDicts rest with
        | error e => rw [hrest] at h; cases h
        | ok ds2 =>
            rw [hrest] at h
            injection h with hds
            subst hds
            rcases List.mem_cons.mp hf with he | hm
            · subst he
              rw [hg2] at ht
              cases ht
            · exact List.mem_cons_of_mem _ (ih hrest f hm t ht hobj d hd)


/- ### Evaluation helper lemmas -/

lemma dcProperties_nil : dcProperties [] = Except.ok [] := by
  simp [dcProperties, pure, Except.pure]

lemma dcProperties_cons_eval {f : PyField} {rest : List PyField} {t : PyType}
    {d props : JDict} (ht : resolveAnnot f.2 = some t)
    (hd : get_openapi_schema t true = Except.ok d)
    (hp : dcProperties rest = Except.ok props) :
    dcProperties (f :: rest) = Except.ok ((f.1, JVal.o d) :: props) := by
  rw [dcProperties_cons_some ht, hd, hp]

lemma dcMergeDicts_nil : dcMergeDicts [] = Except.ok [] := by
  simp [dcMergeDicts, pure, Except.pure]

lemma dcMergeDicts_cons_obj {f : PyField} {rest : List PyField} {t : PyType}
    {d : JDict} {ds : List JDict} (ht : f.2 = PyAnnot.ty t)
    (hobj : get_openapi_type t = "object")
    (hd : get_openapi_schema t false = Except.ok d)
    (hds : dcMergeDicts rest = Except.ok ds) :
    dcMergeDicts (f :: rest) = Except.ok (d :: ds) := by
  rw [dcMergeDicts_cons_ty ht, if_pos hobj, hd, hds]

lemma dcMergeDicts_cons_nonobj {f : PyField} {rest : List PyField} {t : PyType}
    (ht : f.2 = PyAnnot.ty t) (hobj : get_openapi_type t ≠ "object") :
    dcMergeDicts (f :: rest) = dcMergeDicts rest := by
  rw [dcMergeDicts_cons_ty ht, if_neg hobj]

lemma schema_dataclass_ref (n : String) (fs : List PyField) :
    get_openapi_schema (PyType.pyDataclass n fs) true =
      Except.ok [("$ref", JVal.s ("#/components/schemas/" ++ n))] := by
  simp [get_openapi_schema, get_openapi_type, isGenericAlias, genericOriginIsList,
        OPENAPI_TYPE_MAP, pure, Except.pure]

lemma schema_dataclass_inline (n : String) (fs : List PyField) :
    get_openapi_schema (PyType.pyDataclass n fs) false =
      get_openapi_schema_from_dataclass n fs := by
  simp [get_openapi_schema, get_openapi_type, isGenericAlias, genericOriginIsList,
        OPENAPI_TYPE_MAP]

lemma schema_pystr (r : Bool) :
    get_openapi_schema PyType.pystr r = Except.ok [("type", JVal.s "string")] := by
  simp [get_openapi_schema, get_openapi_type, isGenericAlias, genericOriginIsList,
        OPENAPI_TYPE_MAP, scalarTail, get_openapi_format, OPENAPI_FORMAT_MAP,
        pure, Except.pure]

lemma schema_pyint (r : Bool) :
    get_openapi_schema PyType.pyint r = Except.ok [("type", JVal.s "integer")] := by
  simp [get_openapi_schema, get_openapi_type, isGenericAlias, genericOriginIsList,
        OPENAPI_TYPE_MAP, scalarTail, get_openapi_format, OPENAPI_FORMAT_MAP,
        pure, Except.pure]

lemma schema_opt_pystr (r : Bool) :
    get_openapi_schema (PyType.pyOptional PyType.pystr) r =
      Except.ok [("type", JVal.s "string")] := by
  simp [get_openapi_schema, get_openapi_type, isGenericAlias, genericOriginIsList,
        OPENAPI_TYPE_MAP, scalarTail, get_openapi_format, OPENAPI_FORMAT_MAP,
        pure, Except.pure]

lemma schema_listOf {e : PyType} {d : JDict} (r : Bool)
    (hd : get_openapi_schema e true = Except.ok d) :
    get_openapi_schema (PyType.pyListOf e) r =
      Except.ok [("type", JVal.s "array"), ("items", JVal.o d)] := by
  simp [get_openapi_schema, get_openapi_type, isGenericAlias, genericOriginIsList,
        OPENAPI_TYPE_MAP, get_openapi_array_schema, get_array_item_type, hd,
        pure, Except.pure, bind, Except.bind]


/- ### Claim theorems -/

/-- C1: for every type that classifies as object, get_openapi_schema with
reference=true returns exactly the single-key $ref mapping built from the
declared type name, regardless of the internal structure of the type (for a
marshmallow schema class this goes through the delegated adapter, which per
the specification returns the same $ref fragment). -/
theorem C1_object_reference_returns_ref (t : PyType)
    (h : get_openapi_type t = "object") :
    get_openapi_schema t true =
      Except.ok [("$ref", JVal.s ("#/components/schemas/" ++ pyName t))] := by
  cases t
  case pyOptional x =>
    cases x <;>
      simp_all [get_openapi_schema, get_openapi_type, isGenericAlias, genericOriginIsList,
                OPENAPI_TYPE_MAP, scalarTail, get_openapi_format, OPENAPI_FORMAT_MAP,
                get_openapi_array_schema, get_array_item_type, pyName,
                get_openapi_schema_from_mashmallow_schema, pure, Except.pure, bind, Except.bind]
  all_goals
    simp_all [get_openapi_schema, get_openapi_type, isGenericAlias, genericOriginIsList,
              OPENAPI_TYPE_MAP, scalarTail, get_openapi_format, OPENAPI_FORMAT_MAP,
              get_openapi_array_schema, get_array_item_type, pyName,
              get_openapi_schema_from_mashmallow_schema, pure, Except.pure, bind, Except.bind]

/-- Witness for C1 at the plain class Foo. -/
theorem C1_object_reference_returns_ref_witness :
    get_openapi_schema (PyType.pyClass "Foo") true =
      Except.ok [("$ref", JVal.s "#/components/schemas/Foo")] := by
  have h := C1_object_reference_returns_ref (PyType.pyClass "Foo")
    (by simp [get_openapi_type, OPENAPI_TYPE_MAP, isGenericAlias, genericOriginIsList])
  simpa [pyName] using h

/-- C2: every scalar type of the fixed type map, and its optional-wrapped
form, resolves to its mapped kind tag, with a format key exactly for the
date-like types (date and date-time) and no format key otherwise. -/
theorem C2_scalar_type_map :
    get_openapi_schema PyType.pystr true = Except.ok [("type", JVal.s "string")] ∧
    get_openapi_schema PyType.pydate true =
      Except.ok [("type", JVal.s "string"), ("format", JVal.s "date")] ∧
    get_openapi_schema PyType.pydatetime true =
      Except.ok [("type", JVal.s "string"), ("format", JVal.s "date-time")] ∧
    get_openapi_schema PyType.pyfloat true = Except.ok [("type", JVal.s "number")] ∧
    get_openapi_schema PyType.pyint true = Except.ok [("type", JVal.s "integer")] ∧
    get_openapi_schema PyType.pybool true = Except.ok [("type", JVal.s "boolean")] ∧
    get_openapi_schema (PyType.pyOptional PyType.pystr) true =
      Except.ok [("type", JVal.s "string")] ∧
    get_openapi_schema (PyType.pyOptional PyType.pydate) true =
      Except.ok [("type", JVal.s "string"), ("format", JVal.s "date")] ∧
    get_openapi_schema (PyType.pyOptional PyType.pydatetime) true =
      Except.ok [("type", JVal.s "string"), ("format", JVal.s "date-time")] ∧
    get_openapi_schema (PyType.pyOptional PyType.pyfloat) true =
      Except.ok [("type", JVal.s "number")] ∧
    get_openapi_schema (PyType.pyOptional PyType.pyint) true =
      Except.ok [("type", JVal.s "integer")] ∧
    get_openapi_schema (PyType.pyOptional PyType.pybool) true =
      Except.ok [("type", JVal.s "boolean")] := by
  refine ⟨?_, ?_, ?_, ?_, ?_, ?_, ?_, ?_, ?_, ?_, ?_, ?_⟩ <;>
    simp [get_openapi_schema, get_openapi_type, isGenericAlias, genericOriginIsList,
          OPENAPI_TYPE_MAP, scalarTail, get_openapi_format, OPENAPI_FORMAT_MAP,
          pure, Except.pure]

/-- C5: a parameterized list type resolves to an array schema whose items
entry is the referenced schema of the element type, and the bare sequence
types (builtin list and bare typing.List, whose parameter is a TypeVar)
resolve to an array schema with an empty items mapping, without failing. -/
theorem C5_array_items_schema :
    (∀ (e : PyType) (r : Bool) (d : JDict),
        get_openapi_schema e true = Except.ok d →
        get_openapi_schema (PyType.pyListOf e) r =
          Except.ok [("type", JVal.s "array"), ("items", JVal.o d)]) ∧
    (∀ r : Bool, get_openapi_schema PyType.pylist r =
        Except.ok [("type", JVal.s "array"), ("items", JVal.o [])]) ∧
    (∀ r : Bool, get_openapi_schema PyType.pyListBare r =
        Except.ok [("type", JVal.s "array"), ("items", JVal.o [])]) := by
  refine ⟨?_, ?_, ?_⟩
  · intro e r d hd
    simp [get_openapi_schema, get_openapi_type, isGenericAlias, genericOriginIsList,
          OPENAPI_TYPE_MAP, get_openapi_array_schema, get_array_item_type, hd,
          pure, Except.pure, bind, Except.bind]
  · intro r
    simp [get_openapi_schema, get_openapi_type, isGenericAlias, genericOriginIsList,
          OPENAPI_TYPE_MAP, get_openapi_array_schema, get_array_item_type,
          pure, Except.pure]
  · intro r
    simp [get_openapi_schema, get_openapi_type, isGenericAlias, genericOriginIsList,
          OPENAPI_TYPE_MAP, get_openapi_array_schema, get_array_item_type,
          pure, Except.pure]

/-- Witness for C5 at List of int. -/
theorem C5_array_items_schema_witness :
    get_openapi_schema (PyType.pyListOf PyType.pyint) true =
      Except.ok [("type", JVal.s "array"),
                 ("items", JVal.o [("type", JVal.s "integer")])] :=
  C5_array_items_schema.1 PyType.pyint true [("type", JVal.s "integer")]
    (by simp [get_openapi_schema, get_openapi_type, isGenericAlias, genericOriginIsList,
              OPENAPI_TYPE_MAP, scalarTail, get_openapi_format, OPENAPI_FORMAT_MAP,
              pure, Except.pure])

/-- C6: for a marshmallow Schema subclass and either value of the reference
flag, get_openapi_schema is a pure pass-through of the adapter
get_openapi_schema_from_mashmallow_schema with the flag forwarded. -/
theorem C6_marshmallow_delegation (name : String) (reference : Bool) :
    get_openapi_schema (PyType.pyMarshmallow name) reference =
      Except.ok (get_openapi_schema_from_mashmallow_schema name reference) := by
  simp [get_openapi_schema, get_openapi_type, isGenericAlias, genericOriginIsList,
        OPENAPI_TYPE_MAP, pure, Except.pure]

/-- C8: a record with a field whose declared type cannot be resolved (a
dangling forward reference) makes get_openapi_schema_from_dataclass raise
the NameError of get_type_hints, which propagates unchanged through
get_openapi_schema, with no partial result. -/
theorem C8_dangling_ref_error (name : String) (fields : List PyField) (s : String)
    (h : danglingField fields = some s) :
    get_openapi_schema_from_dataclass name fields =
      Except.error ("NameError: name " ++ s ++ " is not defined") ∧
    get_openapi_schema (PyType.pyDataclass name fields) false =
      Except.error ("NameError: name " ++ s ++ " is not defined") := by
  have h1 : get_openapi_schema_from_dataclass name fields =
      Except.error ("NameError: name " ++ s ++ " is not defined") := by
    simp [get_openapi_schema_from_dataclass, h, throw, throwThe, MonadExceptOf.throw]
  exact ⟨h1, by
    simp [get_openapi_schema, get_openapi_type, isGenericAlias, genericOriginIsList,
          OPENAPI_TYPE_MAP, h1]⟩

/-- Witness for C8 at a record with one dangling forward reference. -/
theorem C8_dangling_ref_error_witness :
    get_openapi_schema_from_dataclass "Broken" [("boss", PyAnnot.fwdRef "Boss" none)] =
      Except.error ("NameError: name Boss is not defined") ∧
    get_openapi_schema
        (PyType.pyDataclass "Broken" [("boss", PyAnnot.fwdRef "Boss" none)]) false =
      Except.error ("NameError: name Boss is not defined") := by
  have h := C8_dangling_ref_error "Broken" [("boss", PyAnnot.fwdRef "Boss" none)] "Boss"
    (by rfl)
  simpa using h

/-- C9: a type that classifies as object but is neither a marshmallow schema
class nor a dataclass falls through, with reference=false, to the scalar tail
and yields exactly the plain object fragment, without failing. -/
theorem C9_object_fallthrough (t : PyType)
    (h : get_openapi_type t = "object")
    (hm : isMarshmallowT t = false)
    (hd : isDataclassT t = false) :
    get_openapi_schema t false = Except.ok [("type", JVal.s "object")] := by
  cases t
  case pyOptional x =>
    cases x <;>
      simp_all [get_openapi_schema, get_openapi_type, isGenericAlias, genericOriginIsList,
                OPENAPI_TYPE_MAP, scalarTail, get_openapi_format, OPENAPI_FORMAT_MAP,
                isMarshmallowT, isDataclassT, pure, Except.pure]
  all_goals
    simp_all [get_openapi_schema, get_openapi_type, isGenericAlias, genericOriginIsList,
              OPENAPI_TYPE_MAP, scalarTail, get_openapi_format, OPENAPI_FORMAT_MAP,
              isMarshmallowT, isDataclassT, pure, Except.pure]

/-- Witness for C9 at the unrecognized class Widget. -/
theorem C9_object_fallthrough_witness :
    get_openapi_schema (PyType.pyClass "Widget") false =
      Except.ok [("type", JVal.s "object")] :=
  C9_object_fallthrough (PyType.pyClass "Widget")
    (by simp [get_openapi_type, OPENAPI_TYPE_MAP, isGenericAlias, genericOriginIsList])
    (by rfl) (by rfl)

/-- C3: for a record whose hints all resolve, whose field names are distinct
(as Python dataclasses guarantee) and whose merged nested definitions do not
collide with the own type name, the root entry carries a required list that
is exactly the names of the non-optional fields in declaration order, and
every field (optional ones included) appears as a properties key; optional
fields are absent from required. -/
theorem C3_required_excludes_optional (name : String) (fields : List PyField)
    (ds : List JDict)
    (h1 : danglingField fields = none)
    (h2 : dcMergeDicts fields = Except.ok ds)
    (h3 : ∀ d ∈ ds, jlookup name d = none)
    (h4 : (fields.map Prod.fst).Nodup) :
    ∃ result props,
      get_openapi_schema_from_dataclass name fields = Except.ok result ∧
      dcProperties fields = Except.ok props ∧
      jlookup name result = some (JVal.o
        [("title", JVal.s name),
         ("required", JVal.arr ((fields.filter (fun f => !fieldOptional f)).map Prod.fst)),
         ("type", JVal.s "object"),
         ("properties", JVal.o props)]) ∧
      props.map Prod.fst = fields.map Prod.fst ∧
      (∀ f ∈ fields, fieldOptional f = true →
        f.1 ∉ (fields.filter (fun g => !fieldOptional g)).map Prod.fst ∧
        (jlookup f.1 props).isSome = true) := by
  obtain ⟨props, hp, hk⟩ := dcProperties_ok h1
  have hfd := from_dataclass_eq name h1 hp h2
  refine ⟨_, props, hfd, hp, ?_, hk, ?_⟩
  · rw [jlookup_foldl_dupdate_none ds _ name h3]
    simp [jlookup, dcRequired]
  · intro f hf hopt
    constructor
    · intro hmem
      rw [List.mem_map] at hmem
      obtain ⟨g, hgmem, hgeq⟩ := hmem
      rw [List.mem_filter] at hgmem
      obtain ⟨hgf, hgopt⟩ := hgmem
      have hgfe : g = f := List.inj_on_of_nodup_map h4 hgf hf hgeq
      subst hgfe
      rw [hopt] at hgopt
      cases hgopt
    · rw [jlookup_isSome_iff, hk]
      exact List.mem_map_of_mem Prod.fst hf

/-- Witness for C3 at the Person record of the round-trip scenario. -/
theorem C3_required_excludes_optional_witness :
    ∃ result props,
      get_openapi_schema_from_dataclass "Person"
        [("name", PyAnnot.ty PyType.pystr), ("age", PyAnnot.ty PyType.pyint),
         ("nickname", PyAnnot.ty (PyType.pyOptional PyType.pystr))] = Except.ok result ∧
      dcProperties
        [("name", PyAnnot.ty PyType.pystr), ("age", PyAnnot.ty PyType.pyint),
         ("nickname", PyAnnot.ty (PyType.pyOptional PyType.pystr))] = Except.ok props ∧
      jlookup "Person" result = some (JVal.o
        [("title", JVal.s "Person"),
         ("required", JVal.arr
           (([("name", PyAnnot.ty PyType.pystr), ("age", PyAnnot.ty PyType.pyint),
              ("nickname", PyAnnot.ty (PyType.pyOptional PyType.pystr))].filter
                (fun f => !fieldOptional f)).map Prod.fst)),
         ("type", JVal.s "object"),
         ("properties", JVal.o props)]) ∧
      props.map Prod.fst =
        [("name", PyAnnot.ty PyType.pystr), ("age", PyAnnot.ty PyType.pyint),
         ("nickname", PyAnnot.ty (PyType.pyOptional PyType.pystr))].map Prod.fst ∧
      (∀ f ∈ [("name", PyAnnot.ty PyType.pystr), ("age", PyAnnot.ty PyType.pyint),
              ("nickname", PyAnnot.ty (PyType.pyOptional PyType.pystr))],
        fieldOptional f = true →
        f.1 ∉ (([("name", PyAnnot.ty PyType.pystr), ("age", PyAnnot.ty PyType.pyint),
                 ("nickname", PyAnnot.ty (PyType.pyOptional PyType.pystr))].filter
                  (fun g => !fieldOptional g)).map Prod.fst) ∧
        (jlookup f.1 props).isSome = true) :=
  C3_required_excludes_optional "Person"
    [("name", PyAnnot.ty PyType.pystr), ("age", PyAnnot.ty PyType.pyint),
     ("nickname", PyAnnot.ty (PyType.pyOptional PyType.pystr))] []
    (by rfl)
    (by simp [dcMergeDicts, get_openapi_type, OPENAPI_TYPE_MAP, isGenericAlias,
              genericOriginIsList, pure, Except.pure])
    (by simp)
    (by decide)

/-- The fields of the record N of the C10 counterexample: one string field. -/
def NFields : List PyField := [("x", PyAnnot.ty PyType.pystr)]

/-- The record N. -/
def NRec : PyType := PyType.pyDataclass "N" NFields

/-- The fields of the record M: a field typed directly as N. -/
def MFields : List PyField := [("n", PyAnnot.ty NRec)]

/-- The record M, which holds N as a direct record-typed field. -/
def MRec : PyType := PyType.pyDataclass "M" MFields

/-- The fields of the record R: a field typed M and a field typed List of N,
with no field typed directly as N. -/
def RFields : List PyField :=
  [("m", PyAnnot.ty MRec), ("ns", PyAnnot.ty (PyType.pyListOf NRec))]

/-- C10 (amended): the merge loop inlines only fields whose own classified
kind is object — a field with a direct non-object-classified annotation, in
particular an array field List[N], contributes nothing to the merged
mapping — and therefore, whenever no merged inline schema of an
object-classified field itself carries an entry named N (and N is not the
root name), the returned mapping has no top-level N entry. -/
theorem C10_array_field_not_merged :
    (∀ (f : PyField) (rest : List PyField) (t : PyType),
        f.2 = PyAnnot.ty t → get_openapi_type t ≠ "object" →
        dcMergeDicts (f :: rest) = dcMergeDicts rest) ∧
    (∀ (name : String) (fields : List PyField) (nN : String) (ds : List JDict),
        danglingField fields = none →
        dcMergeDicts fields = Except.ok ds →
        (∀ d ∈ ds, jlookup nN d = none) →
        nN ≠ name →
        ∃ result,
          get_openapi_schema_from_dataclass name fields = Except.ok result ∧
          jlookup nN result = none) := by
  constructor
  · intro f rest t ht hobj
    exact dcMergeDicts_cons_nonobj ht hobj
  · intro name fields nN ds h1 h2 h3 h4
    obtain ⟨props, hp, hk⟩ := dcProperties_ok h1
    have hfd := from_dataclass_eq name h1 hp h2
    refine ⟨_, hfd, ?_⟩
    rw [jlookup_foldl_dupdate_none ds _ nN h3]
    have hne : name ≠ nN := fun e => h4 e.symm
    simp [jlookup, hne]

/-- Witness for C10: at a roster record holding only a List of a Person
record, the array field contributes nothing to the merge and the Person name
has no top-level entry. -/
theorem C10_array_field_not_merged_witness :
    dcMergeDicts [("members", PyAnnot.ty (PyType.pyListOf
        (PyType.pyDataclass "Person" [("name", PyAnnot.ty PyType.pystr)])))] =
      dcMergeDicts [] ∧
    ∃ result,
      get_openapi_schema_from_dataclass "Roster"
        [("members", PyAnnot.ty (PyType.pyListOf
          (PyType.pyDataclass "Person" [("name", PyAnnot.ty PyType.pystr)])))] =
        Except.ok result ∧
      jlookup "Person" result = none :=
  ⟨C10_array_field_not_merged.1
      ("members", PyAnnot.ty (PyType.pyListOf
        (PyType.pyDataclass "Person" [("name", PyAnnot.ty PyType.pystr)]))) []
      (PyType.pyListOf (PyType.pyDataclass "Person" [("name", PyAnnot.ty PyType.pystr)]))
      rfl (by decide),
   C10_array_field_not_merged.2 "Roster"
      [("members", PyAnnot.ty (PyType.pyListOf
        (PyType.pyDataclass "Person" [("name", PyAnnot.ty PyType.pystr)])))]
      "Person" []
      (by rfl)
      ((dcMergeDicts_cons_nonobj rfl (by decide)).trans dcMergeDicts_nil)
      (by simp)
      (by decide)⟩

/-- Counterexample to C10 as frozen: in R with a field typed M and a field
typed List of N — no field typed directly as N — the merge of the M field
brings in the inline schema of M, which itself carries a top-level N entry
(M holds a direct N-typed field), so the mapping resolved for R does contain
a top-level N entry. -/
theorem C10_transitive_merge_counterexample :
    get_openapi_schema_from_dataclass "R" RFields = Except.ok
      [("R", JVal.o
         [("title", JVal.s "R"),
          ("required", JVal.arr ["m", "ns"]),
          ("type", JVal.s "object"),
          ("properties", JVal.o
            [("m", JVal.o [("$ref", JVal.s "#/components/schemas/M")]),
             ("ns", JVal.o
               [("type", JVal.s "array"),
                ("items", JVal.o [("$ref", JVal.s "#/components/schemas/N")])])])]),
       ("M", JVal.o
         [("title", JVal.s "M"),
          ("required", JVal.arr ["n"]),
          ("type", JVal.s "object"),
          ("properties", JVal.o
            [("n", JVal.o [("$ref", JVal.s "#/components/schemas/N")])])]),
       ("N", JVal.o
         [("title", JVal.s "N"),
          ("required", JVal.arr ["x"]),
          ("type", JVal.s "object"),
          ("properties", JVal.o [("x", JVal.o [("type", JVal.s "string")])])])] ∧
    (jlookup "N"
      [("R", JVal.o
         [("title", JVal.s "R"),
          ("required", JVal.arr ["m", "ns"]),
          ("type", JVal.s "object"),
          ("properties", JVal.o
            [("m", JVal.o [("$ref", JVal.s "#/components/schemas/M")]),
             ("ns", JVal.o
               [("type", JVal.s "array"),
                ("items", JVal.o [("$ref", JVal.s "#/components/schemas/N")])])])]),
       ("M", JVal.o
         [("title", JVal.s "M"),
          ("required", JVal.arr ["n"]),
          ("type", JVal.s "object"),
          ("properties", JVal.o
            [("n", JVal.o [("$ref", JVal.s "#/components/schemas/N")])])]),
       ("N", JVal.o
         [("title", JVal.s "N"),
          ("required", JVal.arr ["x"]),
          ("type", JVal.s "object"),
          ("properties", JVal.o [("x", JVal.o [("type", JVal.s "string")])])])]).isSome
      = true := by
  have hnprops : dcProperties NFields = Except.ok
      [("x", JVal.o [("type", JVal.s "string")])] :=
    dcProperties_cons_eval rfl (schema_pystr true) dcProperties_nil
  have hnm : dcMergeDicts NFields = Except.ok [] := by
    rw [show NFields = [("x", PyAnnot.ty PyType.pystr)] from rfl,
        dcMergeDicts_cons_nonobj rfl (by decide), dcMergeDicts_nil]
  have hnd : get_openapi_schema_from_dataclass "N" NFields = Except.ok
      [("N", JVal.o
        [("title", JVal.s "N"),
         ("required", JVal.arr ["x"]),
         ("type", JVal.s "object"),
         ("properties", JVal.o [("x", JVal.o [("type", JVal.s "string")])])])] := by
    have h := from_dataclass_eq "N" (by rfl) hnprops hnm
    rw [h]
    rfl
  have hn_false : get_openapi_schema NRec false = Except.ok
      [("N", JVal.o
        [("title", JVal.s "N"),
         ("required", JVal.arr ["x"]),
         ("type", JVal.s "object"),
         ("properties", JVal.o [("x", JVal.o [("type", JVal.s "string")])])])] :=
    (schema_dataclass_inline "N" NFields).trans hnd
  have hmprops : dcProperties MFields = Except.ok
      [("n", JVal.o [("$ref", JVal.s "#/components/schemas/N")])] :=
    dcProperties_cons_eval rfl (schema_dataclass_ref "N" NFields) dcProperties_nil
  have hmm2 : dcMergeDicts MFields = Except.ok
      [[("N", JVal.o
        [("title", JVal.s "N"),
         ("required", JVal.arr ["x"]),
         ("type", JVal.s "object"),
         ("properties", JVal.o [("x", JVal.o [("type", JVal.s "string")])])])]] := by
    rw [show MFields = [("n", PyAnnot.ty NRec)] from rfl,
        dcMergeDicts_cons_obj rfl (by rfl) hn_false dcMergeDicts_nil]
  have hmd : get_openapi_schema_from_dataclass "M" MFields = Except.ok
      [("M", JVal.o
         [("title", JVal.s "M"),
          ("required", JVal.arr ["n"]),
          ("type", JVal.s "object"),
          ("properties", JVal.o
            [("n", JVal.o [("$ref", JVal.s "#/components/schemas/N")])])]),
       ("N", JVal.o
         [("title", JVal.s "N"),
          ("required", JVal.arr ["x"]),
          ("type", JVal.s "object"),
          ("properties", JVal.o [("x", JVal.o [("type", JVal.s "string")])])])] := by
    have h := from_dataclass_eq "M" (by rfl) hmprops hmm2
    rw [h]
    rfl
  have hm_false : get_openapi_schema MRec false = Except.ok
      [("M", JVal.o
         [("title", JVal.s "M"),
          ("required", JVal.arr ["n"]),
          ("type", JVal.s "object"),
          ("properties", JVal.o
            [("n", JVal.o [("$ref", JVal.s "#/components/schemas/N")])])]),
       ("N", JVal.o
         [("title", JVal.s "N"),
          ("required", JVal.arr ["x"]),
          ("type", JVal.s "object"),
          ("properties", JVal.o [("x", JVal.o [("type", JVal.s "string")])])])] :=
    (schema_dataclass_inline "M" MFields).trans hmd
  have hrprops : dcProperties RFields = Except.ok
      [("m", JVal.o [("$ref", JVal.s "#/components/schemas/M")]),
       ("ns", JVal.o
         [("type", JVal.s "array"),
          ("items", JVal.o [("$ref", JVal.s "#/components/schemas/N")])])] :=
    dcProperties_cons_eval rfl (schema_dataclass_ref "M" MFields)
      (dcProperties_cons_eval rfl
        (schema_listOf true (schema_dataclass_ref "N" NFields)) dcProperties_nil)
  have hrm : dcMergeDicts RFields = Except.ok
      [[("M", JVal.o
         [("title", JVal.s "M"),
          ("required", JVal.arr ["n"]),
          ("type", JVal.s "object"),
          ("properties", JVal.o
            [("n", JVal.o [("$ref", JVal.s "#/components/schemas/N")])])]),
        ("N", JVal.o
         [("title", JVal.s "N"),
          ("required", JVal.arr ["x"]),
          ("type", JVal.s "object"),
          ("properties", JVal.o [("x", JVal.o [("type", JVal.s "string")])])])]] := by
    rw [show RFields =
        [("m", PyAnnot.ty MRec), ("ns", PyAnnot.ty (PyType.pyListOf NRec))] from rfl,
        dcMergeDicts_cons_obj rfl (by rfl) hm_false
          ((dcMergeDicts_cons_nonobj rfl (by decide)).trans dcMergeDicts_nil)]
  constructor
  · have h := from_dataclass_eq "R" (by rfl) hrprops hrm
    rw [h]
    rfl
  · rfl

/-- The fields of the Person record from the nested-record scenario of the
specification: name str, age int, nickname Optional str. -/
def PersonFields : List PyField :=
  [("name", PyAnnot.ty PyType.pystr), ("age", PyAnnot.ty PyType.pyint),
   ("nickname", PyAnnot.ty (PyType.pyOptional PyType.pystr))]

/-- The Person dataclass of the nested-record scenario. -/
def Person : PyType := PyType.pyDataclass "Person" PersonFields

/-- The fields of the Team record: lead Person, members List of Person. -/
def TeamFields : List PyField :=
  [("lead", PyAnnot.ty Person), ("members", PyAnnot.ty (PyType.pyListOf Person))]

lemma dcProperties_PersonFields : dcProperties PersonFields = Except.ok
    [("name", JVal.o [("type", JVal.s "string")]),
     ("age", JVal.o [("type", JVal.s "integer")]),
     ("nickname", JVal.o [("type", JVal.s "string")])] :=
  dcProperties_cons_eval rfl (schema_pystr true)
    (dcProperties_cons_eval rfl (schema_pyint true)
      (dcProperties_cons_eval rfl (schema_opt_pystr true) dcProperties_nil))

lemma dcMergeDicts_PersonFields : dcMergeDicts PersonFields = Except.ok [] := by
  rw [show PersonFields =
    [("name", PyAnnot.ty PyType.pystr), ("age", PyAnnot.ty PyType.pyint),
     ("nickname", PyAnnot.ty (PyType.pyOptional PyType.pystr))] from rfl,
    dcMergeDicts_cons_nonobj rfl (by decide),
    dcMergeDicts_cons_nonobj rfl (by decide),
    dcMergeDicts_cons_nonobj rfl (by decide),
    dcMergeDicts_nil]

lemma from_dataclass_Person :
    get_openapi_schema_from_dataclass "Person" PersonFields = Except.ok
      [("Person", JVal.o
        [("title", JVal.s "Person"),
         ("required", JVal.arr ["name", "age"]),
         ("type", JVal.s "object"),
         ("properties", JVal.o
           [("name", JVal.o [("type", JVal.s "string")]),
            ("age", JVal.o [("type", JVal.s "integer")]),
            ("nickname", JVal.o [("type", JVal.s "string")])])])] := by
  have h := from_dataclass_eq "Person" (by rfl) dcProperties_PersonFields
    dcMergeDicts_PersonFields
  simpa [dcRequired, PersonFields, fieldOptional, resolveAnnot, _is_optional_type] using h

lemma schema_Person_inline : get_openapi_schema Person false = Except.ok
    [("Person", JVal.o
      [("title", JVal.s "Person"),
       ("required", JVal.arr ["name", "age"]),
       ("type", JVal.s "object"),
       ("properties", JVal.o
         [("name", JVal.o [("type", JVal.s "string")]),
          ("age", JVal.o [("type", JVal.s "integer")]),
          ("nickname", JVal.o [("type", JVal.s "string")])])])] :=
  (schema_dataclass_inline "Person" PersonFields).trans from_dataclass_Person

lemma dcProperties_TeamFields : dcProperties TeamFields = Except.ok
    [("lead", JVal.o [("$ref", JVal.s "#/components/schemas/Person")]),
     ("members", JVal.o
       [("type", JVal.s "array"),
        ("items", JVal.o [("$ref", JVal.s "#/components/schemas/Person")])])] :=
  dcProperties_cons_eval rfl (schema_dataclass_ref "Person" PersonFields)
    (dcProperties_cons_eval rfl
      (schema_listOf true (schema_dataclass_ref "Person" PersonFields))
      dcProperties_nil)

lemma dcMergeDicts_TeamFields : dcMergeDicts TeamFields = Except.ok
    [[("Person", JVal.o
      [("title", JVal.s "Person"),
       ("required", JVal.arr ["name", "age"]),
       ("type", JVal.s "object"),
       ("properties", JVal.o
         [("name", JVal.o [("type", JVal.s "string")]),
          ("age", JVal.o [("type", JVal.s "integer")]),
          ("nickname", JVal.o [("type", JVal.s "string")])])])]] := by
  rw [show TeamFields =
    [("lead", PyAnnot.ty Person), ("members", PyAnnot.ty (PyType.pyListOf Person))] from rfl,
    dcMergeDicts_cons_obj rfl (by rfl) schema_Person_inline
      ((dcMergeDicts_cons_nonobj rfl (by decide)).trans dcMergeDicts_nil)]

/-- C4: resolving the Team record inline merges the Person definition of its
record-typed lead field alongside the Team root entry, each exactly once,
with the lead property a $ref to Person and the members property an array of
$ref-to-Person items; and in general, for every record that resolves
successfully, the root entry key is present and every key of the inline
schema of every object-classified record-typed field is present in the
returned mapping. -/
theorem C4_nested_record_definitions_merged :
    get_openapi_schema_from_dataclass "Team" TeamFields = Except.ok
      [("Team", JVal.o
         [("title", JVal.s "Team"),
          ("required", JVal.arr ["lead", "members"]),
          ("type", JVal.s "object"),
          ("properties", JVal.o
            [("lead", JVal.o [("$ref", JVal.s "#/components/schemas/Person")]),
             ("members", JVal.o
               [("type", JVal.s "array"),
                ("items", JVal.o [("$ref", JVal.s "#/components/schemas/Person")])])])]),
       ("Person", JVal.o
         [("title", JVal.s "Person"),
          ("required", JVal.arr ["name", "age"]),
          ("type", JVal.s "object"),
          ("properties", JVal.o
            [("name", JVal.o [("type", JVal.s "string")]),
             ("age", JVal.o [("type", JVal.s "integer")]),
             ("nickname", JVal.o [("type", JVal.s "string")])])])] ∧
    (∀ (name : String) (fields : List PyField) (result : JDict),
      get_openapi_schema_from_dataclass name fields = Except.ok result →
      (jlookup name result).isSome = true ∧
      ∀ f ∈ fields, ∀ t, f.2 = PyAnnot.ty t → get_openapi_type t = "object" →
        ∀ d, get_openapi_schema t false = Except.ok d →
          ∀ k ∈ d.map Prod.fst, (jlookup k result).isSome = true) := by
  constructor
  · have h := from_dataclass_eq "Team" (by rfl) dcProperties_TeamFields
      dcMergeDicts_TeamFields
    rw [h]
    rfl
  · intro name fields result hres
    obtain ⟨hdang, props, ds, hp, hm, hresult⟩ := from_dataclass_ok_inv hres
    subst hresult
    constructor
    · exact isSome_foldl_dupdate_left _ _ _ (by simp [jlookup])
    · intro f hf t ht hobj d hdok k hk
      have hmem := dcMergeDicts_mem hm f hf t ht hobj d hdok
      exact isSome_foldl_dupdate_mem ds _ d k hmem ((jlookup_isSome_iff k d).mpr hk)

/-- Witness for C4: instantiating the general conjunct at the Team record
shows the Person key present in the resolved Team mapping. -/
theorem C4_nested_record_definitions_merged_witness :
    ∃ result, get_openapi_schema_from_dataclass "Team" TeamFields = Except.ok result ∧
      (jlookup "Person" result).isSome = true := by
  have h := C4_nested_record_definitions_merged
  refine ⟨_, h.1, ?_⟩
  exact (h.2 "Team" TeamFields _ h.1).2 ("lead", PyAnnot.ty Person)
    (by simp [TeamFields]) Person rfl (by rfl)
    _ schema_Person_inline "Person" (by simp)

/-- The number of entries of a dict carrying a given key (a real Python dict
holds a key at most once; the association-list model makes the count
explicit). -/
def countKey (d : JDict) (k : String) : Nat :=
  (d.filter (fun kv => kv.1 = k)).length

/-- C7: every fragment returned by get_openapi_schema for a non-marshmallow
input that is not an inline dataclass request (scalar and array results,
reference-mode object results, and the object fall-through) has exactly one
type key or exactly one $ref key, never both. -/
theorem C7_fragment_type_xor_ref (t : PyType) (r : Bool) (d : JDict)
    (hm : isMarshmallowT t = false)
    (hdc : isDataclassT t = true → r = true)
    (hok : get_openapi_schema t r = Except.ok d) :
    (countKey d "type" = 1 ∧ countKey d "$ref" = 0) ∨
    (countKey d "$ref" = 1 ∧ countKey d "type" = 0) := by
  cases t
  case pyMarshmallow n => simp [isMarshmallowT] at hm
  case pyDataclass n fs =>
      have hr : r = true := hdc rfl
      subst hr
      simp [get_openapi_schema, get_openapi_type, isGenericAlias, genericOriginIsList,
            OPENAPI_TYPE_MAP, pure, Except.pure] at hok
      subst hok
      simp [countKey, List.filter]
  case pyListOf e =>
      cases hs : get_openapi_schema e true with
      | error er =>
          simp [get_openapi_schema, get_openapi_type, isGenericAlias, genericOriginIsList,
                OPENAPI_TYPE_MAP, get_openapi_array_schema, get_array_item_type, hs,
                pure, Except.pure, bind, Except.bind] at hok
      | ok items =>
          simp [get_openapi_schema, get_openapi_type, isGenericAlias, genericOriginIsList,
                OPENAPI_TYPE_MAP, get_openapi_array_schema, get_array_item_type, hs,
                pure, Except.pure, bind, Except.bind] at hok
          subst hok
          simp [countKey, List.filter]
  case pyOptional x =>
      cases x <;> cases r <;>
        (simp [get_openapi_schema, get_openapi_type, isGenericAlias, genericOriginIsList,
               OPENAPI_TYPE_MAP, scalarTail, get_openapi_format, OPENAPI_FORMAT_MAP,
               pyName, pure, Except.pure] at hok
         subst hok
         simp [countKey, List.filter])
  case pyClass n =>
      cases r <;>
        (simp [get_openapi_schema, get_openapi_type, isGenericAlias, genericOriginIsList,
               OPENAPI_TYPE_MAP, scalarTail, get_openapi_format, OPENAPI_FORMAT_MAP,
               pyName, pure, Except.pure] at hok
         subst hok
         simp [countKey, List.filter])
  all_goals
    (simp [get_openapi_schema, get_openapi_type, isGenericAlias, genericOriginIsList,
           OPENAPI_TYPE_MAP, scalarTail, get_openapi_format, OPENAPI_FORMAT_MAP,
           get_openapi_array_schema, get_array_item_type, pure, Except.pure] at hok
     subst hok
     simp [countKey, List.filter])

/-- Witness for C7 at int with reference=true. -/
theorem C7_fragment_type_xor_ref_witness :
    (countKey [("type", JVal.s "integer")] "type" = 1 ∧
     countKey [("type", JVal.s "integer")] "$ref" = 0) ∨
    (countKey [("type", JVal.s "integer")] "$ref" = 1 ∧
     countKey [("type", JVal.s "integer")] "type" = 0) :=
  C7_fragment_type_xor_ref PyType.pyint true [("type", JVal.s "integer")]
    (by rfl) (fun h => by cases h)
    (by simp [get_openapi_schema, get_openapi_type, isGenericAlias, genericOriginIsList,
              OPENAPI_TYPE_MAP, scalarTail, get_openapi_format, OPENAPI_FORMAT_MAP,
              pure, Except.pure])
